import Mathlib

/-!
Verification of the FPL-prediction pipeline's sequence-construction core.

This file gives a shallow embedding of the sliding-window Sequence Builder
(`create_sequences` in `data_processing.py`), the Latest-Window Extractor
(`predict_next_gameweek` in `model.py`), the gameweek synthesis step of
ingestion (`ingest_data` in `data_ingestion.py`, lines 93-96) and the
normalization/guard step of `process_data` (`data_processing.py`, lines
93-112), and proves the spec's testable properties about them.

Modelling conventions:
- A pandas DataFrame is a list of column names together with rows of
  integer cells aligned positionally with the columns.  Cell values are
  `Int` (raw FPL data is integer-valued; the StandardScaler's output is
  abstracted by an arbitrary per-column transform, see `normalizeCols`).
- `df.sort_values(['player_id','gameweek'])` is a stable lexicographic
  sort; pandas uses a stable lexsort for multi-column keys, modelled here
  by a stable insertion sort with the same comparator.
- `Series.unique()` keeps the first occurrence of each value in order of
  appearance, modelled by `dedupFirst`.
- Fallible behaviour (pandas `KeyError`, and the source's explicit
  `return None, None`) is modelled by an `Option` result: `none` means the
  call failed (or returned the `None, None` pair) and produced no output.
-/

/-- A pandas DataFrame: named columns plus rows of integer cells aligned
positionally with the column list. -/
structure DataFrame where
  cols : List String
  rows : List (List Int)
deriving Repr, DecidableEq

/-- Value of column `c` in row `r` (positional lookup through the column
list; the default is never reached on well-formed data guarded by
column-presence checks). -/
def cellAt (cols : List String) (r : List Int) (c : String) : Int :=
  r.getD (cols.indexOf c) 0

/-- Column-presence check, modelling `c in df.columns`. -/
def hasCol (df : DataFrame) (c : String) : Bool :=
  df.cols.contains c

/-- Sort key used by `df.sort_values(['player_id', 'gameweek'])`. -/
def rowKey (cols : List String) (r : List Int) : Int × Int :=
  (cellAt cols r "player_id", cellAt cols r "gameweek")

/-- Lexicographic comparison on the (player_id, gameweek) sort key. -/
def rowLeB (cols : List String) (r s : List Int) : Bool :=
  decide ((rowKey cols r).1 < (rowKey cols s).1) ||
    (decide ((rowKey cols r).1 = (rowKey cols s).1) &&
      decide ((rowKey cols r).2 ≤ (rowKey cols s).2))

/-- Stable insertion of a row into an already sorted list: the new row goes
before the first row it compares ≤ to, hence equal keys keep their original
relative order. -/
def insertSorted (cols : List String) (r : List Int) : List (List Int) → List (List Int)
  | [] => [r]
  | s :: l => if rowLeB cols r s then r :: s :: l else s :: insertSorted cols r l

/-- Stable sort by (player_id, gameweek), modelling
`df.sort_values(['player_id', 'gameweek'])` (pandas' multi-column lexsort is
stable). -/
def sortRows (cols : List String) : List (List Int) → List (List Int)
  | [] => []
  | r :: l => insertSorted cols r (sortRows cols l)

/-- First-occurrence deduplication, modelling `Series.unique()`. -/
def dedupFirst : List Int → List Int
  | [] => []
  | x :: xs => x :: (dedupFirst xs).filter (fun y => y != x)

/-- Rows of one player inside the sorted table, modelling
`df[df['player_id'] == player]` (order preserved by the boolean filter). -/
def playerGroup (cols : List String) (sorted : List (List Int)) (p : Int) : List (List Int) :=
  sorted.filter (fun r => cellAt cols r "player_id" == p)

/-- The player iteration order of the Builder:
`df.sort_values(...)['player_id'].unique()`. -/
def playersOf (df : DataFrame) : List Int :=
  dedupFirst ((sortRows df.cols df.rows).map (fun r => cellAt df.cols r "player_id"))

/-- One player's group, extracted from the sorted table. -/
def groupOf (df : DataFrame) (p : Int) : List (List Int) :=
  playerGroup df.cols (sortRows df.cols df.rows) p

/-- The windows one player's group contributes:
`data_array[i:i+seq_length]` for each start index `i` in
`range(len(player_data) - seq_length)`, where `data_array` is the group's
feature columns. -/
def playerSeqs (cols : List String) (feature_cols : List String) (seq_length : Nat)
    (g : List (List Int)) : List (List (List Int)) :=
  (List.range (g.length - seq_length)).map
    (fun i => ((g.drop i).take seq_length).map (fun r => feature_cols.map (cellAt cols r)))

/-- The targets one player's group contributes: `target_array[i+seq_length]`
for each start index `i`. -/
def playerTgts (cols : List String) (target_col : String) (seq_length : Nat)
    (g : List (List Int)) : List Int :=
  (List.range (g.length - seq_length)).map
    (fun i => cellAt cols (g.getD (i + seq_length) []) target_col)

/-- Windows contributed by player `p` to the Builder's output (empty when
the group has at most `seq_length` rows — the `continue` branch). -/
def blockSeqs (df : DataFrame) (feature_cols : List String) (seq_length : Nat) (p : Int) :
    List (List (List Int)) :=
  if (groupOf df p).length ≤ seq_length then []
  else playerSeqs df.cols feature_cols seq_length (groupOf df p)

/-- Targets contributed by player `p` to the Builder's output. -/
def blockTgts (df : DataFrame) (target_col : String) (seq_length : Nat) (p : Int) : List Int :=
  if (groupOf df p).length ≤ seq_length then []
  else playerTgts df.cols target_col seq_length (groupOf df p)

/-- Shallow embedding of `create_sequences` (`data_processing.py`, lines
128-152).  Faithful to the source:
- `df is None` and a missing `gameweek` column return `None, None`,
  modelled as `none`;
- `sort_values(['player_id', 'gameweek'])` raises `KeyError` when
  `player_id` is absent, also modelled as `none`;
- per eligible player (strictly more than `seq_length` rows),
  `player_data[feature_cols]` / `player_data[target_col]` raise `KeyError`
  when a column is absent — the whole call fails with no output;
- otherwise windows and targets are appended player by player
  (the `sequences.append` / `targets.append` loop, modelled by the fold). -/
def create_sequences (df? : Option DataFrame) (seq_length : Nat)
    (feature_cols : List String) (target_col : String) :
    Option (List (List (List Int)) × List Int) :=
  match df? with
  | none => none
  | some df =>
    if hasCol df "gameweek" then
      if hasCol df "player_id" then
        (playersOf df).foldl
          (fun acc p =>
            match acc with
            | none => none
            | some (ss, ts) =>
              if (groupOf df p).length ≤ seq_length then some (ss, ts)
              else if feature_cols.all (fun c => hasCol df c) && hasCol df target_col then
                some (ss ++ playerSeqs df.cols feature_cols seq_length (groupOf df p),
                      ts ++ playerTgts df.cols target_col seq_length (groupOf df p))
              else none)
          (some ([], []))
      else none
    else none

/-- Pure/state view of one Builder call: the caller's row store is threaded
explicitly.  Every table operation the source performs (`sort_values`,
boolean filtering, `reset_index`, column extraction) returns a fresh object
— the source never uses an in-place operation — so the store comes back
unchanged next to the computed output. -/
def create_sequences_call (store : Option DataFrame) (seq_length : Nat)
    (feature_cols : List String) (target_col : String) :
    Option (List (List (List Int)) × List Int) × Option DataFrame :=
  (create_sequences store seq_length feature_cols target_col, store)

/-- Python slice `player_data.iloc[-seq_length:]`: the last `seq_length`
rows, except that `-0` means `0` in Python, so `seq_length = 0` selects the
whole group. -/
def lastRows (seq_length : Nat) (g : List (List Int)) : List (List Int) :=
  if seq_length = 0 then g else g.drop (g.length - seq_length)

/-- Shallow embedding of `predict_next_gameweek` (`model.py`, lines 60-76).
The trained network is abstracted as a function `model` from one window to
one scalar (`model.predict(seq)[0, 0]`).  The predictions dictionary is an
association list built in player-iteration order; a `KeyError` (missing
sort column, or missing feature column for a player with at least
`seq_length` rows) fails the whole call. -/
def predict_next_gameweek (model : List (List Int) → Int) (df : DataFrame)
    (seq_length : Nat) (feature_cols : List String) : Option (List (Int × Int)) :=
  if hasCol df "player_id" && hasCol df "gameweek" then
    (playersOf df).foldl
      (fun acc p =>
        match acc with
        | none => none
        | some preds =>
          if seq_length ≤ (groupOf df p).length then
            if feature_cols.all (fun c => hasCol df c) then
              some (preds ++
                [(p, model ((lastRows seq_length (groupOf df p)).map
                  (fun r => feature_cols.map (cellAt df.cols r))))])
            else none
          else some preds)
      (some [])
  else none

/-- Shallow embedding of the gameweek-synthesis step of `ingest_data`
(`data_ingestion.py`, lines 93-96): when a per-player file has no
`gameweek` column, `reset_index` materialises the positional row index as a
new first column, it is renamed to `gameweek`, and 1 is added — row `k`
(zero-based) receives gameweek `k + 1`.  A file that already has the column
is left untouched. -/
def addGameweek (df : DataFrame) : DataFrame :=
  if hasCol df "gameweek" then df
  else
    { cols := "gameweek" :: df.cols,
      rows := df.rows.mapIdx (fun k r => ((k : Int) + 1) :: r) }

/-- Per-row effect of the per-column transform: cells of the columns listed
in `ncols` are rescaled by `f`, all other cells are untouched. -/
def normRow (f : String → Int → Int) (ncols : List String) (cols : List String)
    (r : List Int) : List Int :=
  r.mapIdx (fun i v => if ncols.contains (cols.getD i "") then f (cols.getD i "") v else v)

/-- The per-column transform `df[feature_cols] = scaler.fit_transform(...)`
(`data_processing.py`, line 98).  The StandardScaler rescales each selected
column cell-wise by the affine map fitted to that column; the map is
abstracted as an arbitrary function `f` of the column name and cell value. -/
def normalizeCols (f : String → Int → Int) (ncols : List String) (df : DataFrame) : DataFrame :=
  { cols := df.cols,
    rows := df.rows.map (normRow f ncols df.cols) }

/-- The columns `process_data` requires before it will build sequences
(`data_processing.py`, line 72). -/
def required_cols : List String :=
  ["player_id", "gameweek", "minutes", "goals", "assists", "points"]

/-- The feature columns `process_data` normalizes and builds sequences from
(`data_processing.py`, line 96). -/
def default_feature_cols : List String := ["minutes", "goals", "assists"]

/-- The (X, y) computation of `process_data` (`data_processing.py`, lines
93-115): with no gameweek data, or with a required column missing, `X, y`
is `None, None` and `create_sequences` is never called; otherwise the
feature columns are normalized and the Builder runs with
`seq_length = 5`, the three feature columns and target `points`. -/
def process_data_Xy (f : String → Int → Int) (df? : Option DataFrame) :
    Option (List (List (List Int)) × List Int) :=
  match df? with
  | none => none
  | some df =>
    if required_cols.all (fun c => hasCol df c) then
      create_sequences (some (normalizeCols f default_feature_cols df)) 5
        default_feature_cols "points"
    else none

/-- The prediction entry `predict_next_gameweek` produces for one player:
an entry exactly when the player has at least `seq_length` rows. -/
def predEntry (model : List (List Int) → Int) (df : DataFrame) (seq_length : Nat)
    (feature_cols : List String) (p : Int) : Option (Int × Int) :=
  if seq_length ≤ (groupOf df p).length then
    some (p, model ((lastRows seq_length (groupOf df p)).map
      (fun r => feature_cols.map (cellAt df.cols r))))
  else none

/-- C6 counterexample input: all sort columns present, the feature column
`minutes` absent, and the only player holding three rows (fewer than
window_length + 1 = 6). -/
def c6df : DataFrame :=
  { cols := ["player_id", "gameweek", "points"],
    rows := [[1, 1, 5], [1, 2, 3], [1, 3, 4]] }

/-- C4 failing input: a row store with every required column and a single
player owning three rows, with window_length 5. -/
def c4df : DataFrame :=
  { cols := ["player_id", "gameweek", "minutes", "goals", "assists", "points"],
    rows := [[1, 1, 90, 0, 0, 2], [1, 2, 80, 1, 0, 6], [1, 3, 90, 0, 1, 5]] }

-- Sanity checks against the worked examples of spec section 8.

def exampleDf : DataFrame :=
  { cols := ["player_id", "gameweek", "minutes", "points"],
    rows := [[7, 1, 90, 6], [7, 2, 45, 2], [7, 3, 0, 0],
             [7, 4, 90, 9], [7, 5, 90, 5], [7, 6, 60, 7]] }

theorem sanity_builder_window :
    create_sequences (some exampleDf) 5 ["minutes"] "points"
      = some ([[[90], [45], [0], [90], [90]]], [7]) := by
  decide

theorem sanity_builder_skip :
    create_sequences (some exampleDf) 6 ["minutes"] "points" = some ([], []) := by
  decide

theorem sanity_extractor_window :
    predict_next_gameweek (fun s => (s.map (fun r => r.getD 0 0)).sum) exampleDf 3 ["minutes"]
      = some [(7, 240)] := by
  decide

theorem sanity_extractor_keys :
    (predict_next_gameweek (fun _ => 0) exampleDf 3 ["minutes"]).map
        (List.map Prod.fst) = some [7] := by
  decide

theorem sanity_gameweek_synthesis :
    addGameweek { cols := ["minutes"], rows := [[90], [45], [0]] }
      = { cols := ["gameweek", "minutes"], rows := [[1, 90], [2, 45], [3, 0]] } := by
  decide

-- Helper lemmas about the player iteration order.

theorem mem_dedupFirst {x : Int} {l : List Int} : x ∈ dedupFirst l ↔ x ∈ l := by
  induction l with
  | nil => simp [dedupFirst]
  | cons y ys ih =>
    simp only [dedupFirst, List.mem_cons, List.mem_filter]
    constructor
    · rintro (rfl | ⟨hm, _⟩)
      · exact Or.inl rfl
      · exact Or.inr (ih.mp hm)
    · rintro (rfl | hm)
      · exact Or.inl rfl
      · by_cases hxy : x = y
        · exact Or.inl hxy
        · exact Or.inr ⟨ih.mpr hm, by simp [hxy]⟩

theorem nodup_dedupFirst (l : List Int) : (dedupFirst l).Nodup := by
  induction l with
  | nil => simp [dedupFirst]
  | cons y ys ih =>
    simp only [dedupFirst]
    refine List.Nodup.cons ?_ (List.Nodup.filter _ ih)
    intro hmem
    have := (List.mem_filter.mp hmem).2
    simp at this

-- Helper lemmas decomposing the Builder's fold into per-player blocks.

theorem create_step_fold (df : DataFrame) (seq_length : Nat)
    (feature_cols : List String) (target_col : String)
    (hok : (feature_cols.all (fun c => hasCol df c) && hasCol df target_col) = true) :
    ∀ (players : List Int) (ss : List (List (List Int))) (ts : List Int),
      players.foldl
        (fun acc p =>
          match acc with
          | none => none
          | some (ss, ts) =>
            if (groupOf df p).length ≤ seq_length then some (ss, ts)
            else if feature_cols.all (fun c => hasCol df c) && hasCol df target_col then
              some (ss ++ playerSeqs df.cols feature_cols seq_length (groupOf df p),
                    ts ++ playerTgts df.cols target_col seq_length (groupOf df p))
            else none)
        (some (ss, ts))
      = some (ss ++ (players.map (blockSeqs df feature_cols seq_length)).flatten,
              ts ++ (players.map (blockTgts df target_col seq_length)).flatten) := by
  intro players
  induction players with
  | nil => intro ss ts; simp
  | cons p ps ih =>
    intro ss ts
    simp only [List.foldl_cons, List.map_cons, List.flatten_cons]
    by_cases h : (groupOf df p).length ≤ seq_length
    · show List.foldl _ (if (groupOf df p).length ≤ seq_length then some (ss, ts)
        else if feature_cols.all (fun c => hasCol df c) && hasCol df target_col then
          some (ss ++ playerSeqs df.cols feature_cols seq_length (groupOf df p),
                ts ++ playerTgts df.cols target_col seq_length (groupOf df p))
        else none) ps = _
      rw [if_pos h, ih ss ts]
      simp [blockSeqs, blockTgts, if_pos h]
    · show List.foldl _ (if (groupOf df p).length ≤ seq_length then some (ss, ts)
        else if feature_cols.all (fun c => hasCol df c) && hasCol df target_col then
          some (ss ++ playerSeqs df.cols feature_cols seq_length (groupOf df p),
                ts ++ playerTgts df.cols target_col seq_length (groupOf df p))
        else none) ps = _
      rw [if_neg h, if_pos hok,
        ih (ss ++ playerSeqs df.cols feature_cols seq_length (groupOf df p))
           (ts ++ playerTgts df.cols target_col seq_length (groupOf df p))]
      simp [blockSeqs, blockTgts, if_neg h, List.append_assoc]

theorem create_sequences_eq_blocks (df : DataFrame) (seq_length : Nat)
    (feature_cols : List String) (target_col : String)
    (hgw : hasCol df "gameweek" = true) (hpid : hasCol df "player_id" = true)
    (hok : (feature_cols.all (fun c => hasCol df c) && hasCol df target_col) = true) :
    create_sequences (some df) seq_length feature_cols target_col
      = some (((playersOf df).map (blockSeqs df feature_cols seq_length)).flatten,
              ((playersOf df).map (blockTgts df target_col seq_length)).flatten) := by
  simp only [create_sequences, hgw, hpid, if_true]
  rw [create_step_fold df seq_length feature_cols target_col hok (playersOf df) [] []]
  simp

theorem length_blockSeqs (df : DataFrame) (feature_cols : List String) (seq_length : Nat)
    (p : Int) :
    (blockSeqs df feature_cols seq_length p).length = (groupOf df p).length - seq_length := by
  unfold blockSeqs
  split
  · simp; omega
  · simp [playerSeqs]

theorem length_blockTgts (df : DataFrame) (target_col : String) (seq_length : Nat) (p : Int) :
    (blockTgts df target_col seq_length p).length = (groupOf df p).length - seq_length := by
  unfold blockTgts
  split
  · simp; omega
  · simp [playerTgts]

theorem blockSeqs_getD (df : DataFrame) (feature_cols : List String) (seq_length : Nat)
    (p : Int) (i : Nat) (hi : i < (groupOf df p).length - seq_length) :
    (blockSeqs df feature_cols seq_length p).getD i []
      = (((groupOf df p).drop i).take seq_length).map
          (fun r => feature_cols.map (cellAt df.cols r)) := by
  have hnL : ¬ (groupOf df p).length ≤ seq_length := by omega
  unfold blockSeqs playerSeqs
  rw [if_neg hnL, List.getD_eq_getElem _ _ (by simpa using hi)]
  simp

theorem blockTgts_getD (df : DataFrame) (target_col : String) (seq_length : Nat)
    (p : Int) (i : Nat) (hi : i < (groupOf df p).length - seq_length) :
    (blockTgts df target_col seq_length p).getD i 0
      = cellAt df.cols ((groupOf df p).getD (i + seq_length) []) target_col := by
  have hnL : ¬ (groupOf df p).length ≤ seq_length := by omega
  unfold blockTgts playerTgts
  rw [if_neg hnL, List.getD_eq_getElem _ _ (by simpa using hi)]
  simp

theorem blockSeqs_shape (df : DataFrame) (feature_cols : List String) (seq_length : Nat)
    (p : Int) (s : List (List Int)) (hs : s ∈ blockSeqs df feature_cols seq_length p) :
    s.length = seq_length ∧ ∀ v ∈ s, v.length = feature_cols.length := by
  unfold blockSeqs at hs
  split at hs
  · simp at hs
  · rename_i hnL
    unfold playerSeqs at hs
    obtain ⟨i, hi, rfl⟩ := List.mem_map.mp hs
    have hilt : i < (groupOf df p).length - seq_length := List.mem_range.mp hi
    constructor
    · simp only [List.length_map, List.length_take, List.length_drop]
      omega
    · intro v hv
      obtain ⟨r, _, rfl⟩ := List.mem_map.mp hv
      simp

-- Claim theorems for the Sequence Builder.

/-- C1: For every row store and every window_length L ≥ 1, a player whose
group contains exactly n rows contributes exactly max(0, n − L) windows to
the Sequence Builder's output; a player with n ≤ L contributes zero windows
and the call still succeeds (a skip, not an error). -/
theorem c1_player_window_contribution (df : DataFrame) (seq_length : Nat)
    (feature_cols : List String) (target_col : String)
    (hgw : hasCol df "gameweek" = true) (hpid : hasCol df "player_id" = true)
    (hok : (feature_cols.all (fun c => hasCol df c) && hasCol df target_col) = true)
    (_hL : 1 ≤ seq_length) :
    ∃ S T, create_sequences (some df) seq_length feature_cols target_col = some (S, T) ∧
      S = ((playersOf df).map (blockSeqs df feature_cols seq_length)).flatten ∧
      (∀ p : Int, ((blockSeqs df feature_cols seq_length p).length : Int)
          = max 0 (((groupOf df p).length : Int) - (seq_length : Int))) ∧
      (∀ p : Int, (groupOf df p).length ≤ seq_length →
          blockSeqs df feature_cols seq_length p = []) := by
  refine ⟨_, _, create_sequences_eq_blocks df seq_length feature_cols target_col hgw hpid hok,
    rfl, ?_, ?_⟩
  · intro p
    rw [length_blockSeqs]
    omega
  · intro p hle
    unfold blockSeqs
    rw [if_pos hle]

/-- C2: Every window emitted by the Sequence Builder with start index i in a
player's sorted-by-gameweek group has as its target the target-column value
of that player's row at position i + window_length, the row immediately
following the sequence in sorted order. -/
theorem c2_target_is_next_row (df : DataFrame) (seq_length : Nat)
    (feature_cols : List String) (target_col : String)
    (hgw : hasCol df "gameweek" = true) (hpid : hasCol df "player_id" = true)
    (hok : (feature_cols.all (fun c => hasCol df c) && hasCol df target_col) = true) :
    ∃ S T, create_sequences (some df) seq_length feature_cols target_col = some (S, T) ∧
      T = ((playersOf df).map (blockTgts df target_col seq_length)).flatten ∧
      ∀ p i, i < (groupOf df p).length - seq_length →
        i + seq_length < (groupOf df p).length ∧
        (blockTgts df target_col seq_length p).getD i 0
          = cellAt df.cols ((groupOf df p).getD (i + seq_length) []) target_col := by
  refine ⟨_, _, create_sequences_eq_blocks df seq_length feature_cols target_col hgw hpid hok,
    rfl, ?_⟩
  intro p i hi
  exact ⟨by omega, blockTgts_getD df target_col seq_length p i hi⟩

/-- C5: Every window emitted by the Sequence Builder has a sequence of
exactly window_length feature tuples, and every tuple has arity equal to
the number of feature columns requested. -/
theorem c5_window_shape (df : DataFrame) (seq_length : Nat)
    (feature_cols : List String) (target_col : String)
    (hgw : hasCol df "gameweek" = true) (hpid : hasCol df "player_id" = true)
    (hok : (feature_cols.all (fun c => hasCol df c) && hasCol df target_col) = true) :
    ∀ S T, create_sequences (some df) seq_length feature_cols target_col = some (S, T) →
      ∀ s ∈ S, s.length = seq_length ∧ ∀ v ∈ s, v.length = feature_cols.length := by
  intro S T hST s hs
  rw [create_sequences_eq_blocks df seq_length feature_cols target_col hgw hpid hok] at hST
  have hS : S = ((playersOf df).map (blockSeqs df feature_cols seq_length)).flatten :=
    (congrArg Prod.fst (Option.some.inj hST)).symm
  subst hS
  obtain ⟨block, hblock, hsb⟩ := List.mem_flatten.mp hs
  obtain ⟨p, _, rfl⟩ := List.mem_map.mp hblock
  exact blockSeqs_shape df feature_cols seq_length p s hsb

/-- C8: The Sequence Builder emits windows in player-then-position order: in
the concatenated output all windows of one player form a contiguous block
(the output is the concatenation of one block per distinct player of a
deterministic iteration order), and within a block the window at block
position i is the window with start index i in that player's group. -/
theorem c8_player_contiguity (df : DataFrame) (seq_length : Nat)
    (feature_cols : List String) (target_col : String)
    (hgw : hasCol df "gameweek" = true) (hpid : hasCol df "player_id" = true)
    (hok : (feature_cols.all (fun c => hasCol df c) && hasCol df target_col) = true) :
    ∃ S T, create_sequences (some df) seq_length feature_cols target_col = some (S, T) ∧
      S = ((playersOf df).map (blockSeqs df feature_cols seq_length)).flatten ∧
      (playersOf df).Nodup ∧
      ∀ p i, i < (blockSeqs df feature_cols seq_length p).length →
        (blockSeqs df feature_cols seq_length p).getD i []
          = (((groupOf df p).drop i).take seq_length).map
              (fun r => feature_cols.map (cellAt df.cols r)) := by
  refine ⟨_, _, create_sequences_eq_blocks df seq_length feature_cols target_col hgw hpid hok,
    rfl, nodup_dedupFirst _, ?_⟩
  intro p i hi
  rw [length_blockSeqs] at hi
  exact blockSeqs_getD df feature_cols seq_length p i hi

/-- C7: The Sequence Builder is a pure, deterministic function of its
inputs: the row store threaded through a call comes back unchanged (the
source performs no in-place table operation), and a second call on that
unchanged store yields an identical result. -/
theorem c7_purity (store : Option DataFrame) (seq_length : Nat)
    (feature_cols : List String) (target_col : String) :
    (create_sequences_call store seq_length feature_cols target_col).2 = store ∧
    create_sequences_call (create_sequences_call store seq_length feature_cols target_col).2
        seq_length feature_cols target_col
      = create_sequences_call store seq_length feature_cols target_col :=
  ⟨rfl, rfl⟩

theorem c1_witness :
    hasCol exampleDf "gameweek" = true ∧ hasCol exampleDf "player_id" = true ∧
    ((["minutes"].all (fun c => hasCol exampleDf c) && hasCol exampleDf "points") = true) ∧
    (1 : Nat) ≤ 5 ∧
    (∃ S T, create_sequences (some exampleDf) 5 ["minutes"] "points" = some (S, T) ∧
      S = ((playersOf exampleDf).map (blockSeqs exampleDf ["minutes"] 5)).flatten ∧
      (∀ p : Int, ((blockSeqs exampleDf ["minutes"] 5 p).length : Int)
          = max 0 (((groupOf exampleDf p).length : Int) - (5 : Int))) ∧
      (∀ p : Int, (groupOf exampleDf p).length ≤ 5 → blockSeqs exampleDf ["minutes"] 5 p = [])) :=
  ⟨by decide, by decide, by decide, by decide,
    c1_player_window_contribution exampleDf 5 ["minutes"] "points"
      (by decide) (by decide) (by decide) (by decide)⟩

theorem c2_witness :
    hasCol exampleDf "gameweek" = true ∧ hasCol exampleDf "player_id" = true ∧
    ((["minutes"].all (fun c => hasCol exampleDf c) && hasCol exampleDf "points") = true) ∧
    (∃ S T, create_sequences (some exampleDf) 5 ["minutes"] "points" = some (S, T) ∧
      T = ((playersOf exampleDf).map (blockTgts exampleDf "points" 5)).flatten ∧
      ∀ p i, i < (groupOf exampleDf p).length - 5 →
        i + 5 < (groupOf exampleDf p).length ∧
        (blockTgts exampleDf "points" 5 p).getD i 0
          = cellAt exampleDf.cols ((groupOf exampleDf p).getD (i + 5) []) "points") :=
  ⟨by decide, by decide, by decide,
    c2_target_is_next_row exampleDf 5 ["minutes"] "points" (by decide) (by decide) (by decide)⟩

theorem c5_witness :
    hasCol exampleDf "gameweek" = true ∧ hasCol exampleDf "player_id" = true ∧
    ((["minutes"].all (fun c => hasCol exampleDf c) && hasCol exampleDf "points") = true) ∧
    (∀ S T, create_sequences (some exampleDf) 5 ["minutes"] "points" = some (S, T) →
      ∀ s ∈ S, s.length = 5 ∧ ∀ v ∈ s, v.length = (["minutes"] : List String).length) :=
  ⟨by decide, by decide, by decide,
    c5_window_shape exampleDf 5 ["minutes"] "points" (by decide) (by decide) (by decide)⟩

theorem c8_witness :
    hasCol exampleDf "gameweek" = true ∧ hasCol exampleDf "player_id" = true ∧
    ((["minutes"].all (fun c => hasCol exampleDf c) && hasCol exampleDf "points") = true) ∧
    (∃ S T, create_sequences (some exampleDf) 5 ["minutes"] "points" = some (S, T) ∧
      S = ((playersOf exampleDf).map (blockSeqs exampleDf ["minutes"] 5)).flatten ∧
      (playersOf exampleDf).Nodup ∧
      ∀ p i, i < (blockSeqs exampleDf ["minutes"] 5 p).length →
        (blockSeqs exampleDf ["minutes"] 5 p).getD i []
          = (((groupOf exampleDf p).drop i).take 5).map
              (fun r => (["minutes"] : List String).map (cellAt exampleDf.cols r))) :=
  ⟨by decide, by decide, by decide,
    c8_player_contiguity exampleDf 5 ["minutes"] "points" (by decide) (by decide) (by decide)⟩

-- Helper lemmas for the Latest-Window Extractor.

theorem predEntry_key (model : List (List Int) → Int) (df : DataFrame) (seq_length : Nat)
    (feature_cols : List String) (p : Int) (q : Int × Int)
    (h : predEntry model df seq_length feature_cols p = some q) : q.1 = p := by
  unfold predEntry at h
  split at h
  · cases h; rfl
  · cases h

theorem predict_step_fold (model : List (List Int) → Int) (df : DataFrame)
    (seq_length : Nat) (feature_cols : List String)
    (hfc : feature_cols.all (fun c => hasCol df c) = true) :
    ∀ (players : List Int) (preds : List (Int × Int)),
      players.foldl
        (fun acc p =>
          match acc with
          | none => none
          | some preds =>
            if seq_length ≤ (groupOf df p).length then
              if feature_cols.all (fun c => hasCol df c) then
                some (preds ++
                  [(p, model ((lastRows seq_length (groupOf df p)).map
                    (fun r => feature_cols.map (cellAt df.cols r))))])
              else none
            else some preds)
        (some preds)
      = some (preds ++
          players.filterMap (predEntry model df seq_length feature_cols)) := by
  intro players
  induction players with
  | nil => intro preds; simp
  | cons p ps ih =>
    intro preds
    simp only [List.foldl_cons, List.filterMap_cons]
    by_cases h : seq_length ≤ (groupOf df p).length
    · show List.foldl _ (if seq_length ≤ (groupOf df p).length then
          if feature_cols.all (fun c => hasCol df c) then
            some (preds ++
              [(p, model ((lastRows seq_length (groupOf df p)).map
                (fun r => feature_cols.map (cellAt df.cols r))))])
          else none
        else some preds) ps = _
      rw [if_pos h, if_pos hfc, ih]
      simp [predEntry, if_pos h, List.append_assoc]
    · show List.foldl _ (if seq_length ≤ (groupOf df p).length then
          if feature_cols.all (fun c => hasCol df c) then
            some (preds ++
              [(p, model ((lastRows seq_length (groupOf df p)).map
                (fun r => feature_cols.map (cellAt df.cols r))))])
          else none
        else some preds) ps = _
      rw [if_neg h, ih]
      simp [predEntry, if_neg h]

theorem predict_eq_filterMap (model : List (List Int) → Int) (df : DataFrame)
    (seq_length : Nat) (feature_cols : List String)
    (hpid : hasCol df "player_id" = true) (hgw : hasCol df "gameweek" = true)
    (hfc : feature_cols.all (fun c => hasCol df c) = true) :
    predict_next_gameweek model df seq_length feature_cols
      = some ((playersOf df).filterMap (predEntry model df seq_length feature_cols)) := by
  simp only [predict_next_gameweek, hpid, hgw, Bool.and_self, if_true]
  rw [predict_step_fold model df seq_length feature_cols hfc (playersOf df) []]
  simp

theorem countP_filterMap_key_zero (h : Int → Option (Int × Int))
    (hk : ∀ p q, h p = some q → q.1 = p) (p : Int) (players : List Int)
    (hp : p ∉ players) :
    ((players.filterMap h).countP (fun q => q.1 == p)) = 0 := by
  rw [List.countP_eq_zero]
  intro q hq
  obtain ⟨w, hw, hh⟩ := List.mem_filterMap.mp hq
  have hkey := hk w q hh
  simp only [beq_iff_eq, hkey]
  rintro rfl
  exact hp hw

theorem countP_filterMap_key_nodup (h : Int → Option (Int × Int))
    (hk : ∀ p q, h p = some q → q.1 = p) (p : Int) (players : List Int)
    (hnd : players.Nodup) (hp : p ∈ players) :
    ((players.filterMap h).countP (fun q => q.1 == p))
      = if (h p).isSome then 1 else 0 := by
  induction players with
  | nil => cases hp
  | cons y ys ih =>
    rw [List.filterMap_cons]
    rcases List.mem_cons.mp hp with rfl | hmem
    · have hpys : p ∉ ys := (List.nodup_cons.mp hnd).1
      cases hh : h p with
      | none =>
        simp only [hh, Option.isSome_none, Bool.false_eq_true, if_false]
        exact countP_filterMap_key_zero h hk p ys hpys
      | some q =>
        have hq1 : q.1 = p := hk p q hh
        simp only [hh, Option.isSome_some, if_true, List.countP_cons,
          countP_filterMap_key_zero h hk p ys hpys, hq1]
        simp
    · have hyne : y ≠ p := by
        rintro rfl
        exact (List.nodup_cons.mp hnd).1 hmem
      cases hh : h y with
      | none =>
        simp only [hh]
        exact ih (List.nodup_cons.mp hnd).2 hmem
      | some q =>
        have hq1 : q.1 = y := hk y q hh
        simp only [List.countP_cons, hq1, beq_iff_eq, hyne, if_false]
        simpa using ih (List.nodup_cons.mp hnd).2 hmem

/-- C3: For every player in the row store, the Latest-Window Extractor
yields no prediction iff the player's row count is strictly below
window_length; otherwise it yields exactly one prediction for the player,
whose input sequence is the feature tuples of the player's last
window_length rows in ascending-gameweek order. -/
theorem c3_latest_window (model : List (List Int) → Int) (df : DataFrame)
    (seq_length : Nat) (feature_cols : List String)
    (hpid : hasCol df "player_id" = true) (hgw : hasCol df "gameweek" = true)
    (hfc : feature_cols.all (fun c => hasCol df c) = true) (hL : 0 < seq_length) :
    ∃ preds, predict_next_gameweek model df seq_length feature_cols = some preds ∧
      ∀ p ∈ playersOf df,
        (preds.countP (fun q => q.1 == p)
            = if seq_length ≤ (groupOf df p).length then 1 else 0) ∧
        ((groupOf df p).length < seq_length → ∀ v, (p, v) ∉ preds) ∧
        (seq_length ≤ (groupOf df p).length →
          (p, model (((groupOf df p).drop ((groupOf df p).length - seq_length)).map
              (fun r => feature_cols.map (cellAt df.cols r)))) ∈ preds) := by
  refine ⟨_, predict_eq_filterMap model df seq_length feature_cols hpid hgw hfc, ?_⟩
  intro p hp
  have hk := predEntry_key model df seq_length feature_cols
  refine ⟨?_, ?_, ?_⟩
  · rw [countP_filterMap_key_nodup _ hk p (playersOf df) (nodup_dedupFirst _) hp]
    unfold predEntry
    split <;> simp
  · intro hlt v hv
    obtain ⟨w, _, hh⟩ := List.mem_filterMap.mp hv
    have hw : w = p := by
      have := hk w (p, v) hh
      simpa using this.symm
    subst hw
    unfold predEntry at hh
    rw [if_neg (by omega)] at hh
    cases hh
  · intro hge
    refine List.mem_filterMap.mpr ⟨p, hp, ?_⟩
    unfold predEntry
    rw [if_pos hge]
    have : lastRows seq_length (groupOf df p)
        = (groupOf df p).drop ((groupOf df p).length - seq_length) := by
      unfold lastRows
      rw [if_neg (by omega)]
    rw [this]

theorem c3_witness :
    hasCol exampleDf "player_id" = true ∧ hasCol exampleDf "gameweek" = true ∧
    (["minutes"].all (fun c => hasCol exampleDf c)) = true ∧ (0 : Nat) < 3 ∧
    (∃ preds, predict_next_gameweek
        (fun s => (s.map (fun r => r.getD 0 0)).sum) exampleDf 3 ["minutes"] = some preds ∧
      ∀ p ∈ playersOf exampleDf,
        (preds.countP (fun q => q.1 == p)
            = if 3 ≤ (groupOf exampleDf p).length then 1 else 0) ∧
        ((groupOf exampleDf p).length < 3 → ∀ v, (p, v) ∉ preds) ∧
        (3 ≤ (groupOf exampleDf p).length →
          (p, (fun (s : List (List Int)) => (s.map (fun r => r.getD 0 0)).sum)
              (((groupOf exampleDf p).drop ((groupOf exampleDf p).length - 3)).map
                (fun r => (["minutes"] : List String).map (cellAt exampleDf.cols r)))) ∈ preds)) :=
  ⟨by decide, by decide, by decide, by decide,
    c3_latest_window (fun s => (s.map (fun r => r.getD 0 0)).sum) exampleDf 3 ["minutes"]
      (by decide) (by decide) (by decide) (by decide)⟩

-- Helper lemmas for the missing-column behaviour of the Builder.

theorem create_fold_none (df : DataFrame) (seq_length : Nat)
    (feature_cols : List String) (target_col : String) :
    ∀ players : List Int,
      players.foldl
        (fun acc p =>
          match acc with
          | none => none
          | some (ss, ts) =>
            if (groupOf df p).length ≤ seq_length then some (ss, ts)
            else if feature_cols.all (fun c => hasCol df c) && hasCol df target_col then
              some (ss ++ playerSeqs df.cols feature_cols seq_length (groupOf df p),
                    ts ++ playerTgts df.cols target_col seq_length (groupOf df p))
            else none)
        none = none := by
  intro players
  induction players with
  | nil => rfl
  | cons p ps ih =>
    simp only [List.foldl_cons]
    exact ih

theorem create_step_fold_bad (df : DataFrame) (seq_length : Nat)
    (feature_cols : List String) (target_col : String)
    (hbad : (feature_cols.all (fun c => hasCol df c) && hasCol df target_col) = false) :
    ∀ (players : List Int) (ss : List (List (List Int))) (ts : List Int),
      players.foldl
        (fun acc p =>
          match acc with
          | none => none
          | some (ss, ts) =>
            if (groupOf df p).length ≤ seq_length then some (ss, ts)
            else if feature_cols.all (fun c => hasCol df c) && hasCol df target_col then
              some (ss ++ playerSeqs df.cols feature_cols seq_length (groupOf df p),
                    ts ++ playerTgts df.cols target_col seq_length (groupOf df p))
            else none)
        (some (ss, ts))
      = if players.all (fun p => decide ((groupOf df p).length ≤ seq_length))
        then some (ss, ts) else none := by
  intro players
  induction players with
  | nil => intro ss ts; simp
  | cons p ps ih =>
    intro ss ts
    simp only [List.foldl_cons, List.all_cons]
    by_cases h : (groupOf df p).length ≤ seq_length
    · show List.foldl _ (if (groupOf df p).length ≤ seq_length then some (ss, ts)
        else if feature_cols.all (fun c => hasCol df c) && hasCol df target_col then
          some (ss ++ playerSeqs df.cols feature_cols seq_length (groupOf df p),
                ts ++ playerTgts df.cols target_col seq_length (groupOf df p))
        else none) ps = _
      rw [if_pos h, ih ss ts]
      simp [h]
    · show List.foldl _ (if (groupOf df p).length ≤ seq_length then some (ss, ts)
        else if feature_cols.all (fun c => hasCol df c) && hasCol df target_col then
          some (ss ++ playerSeqs df.cols feature_cols seq_length (groupOf df p),
                ts ++ playerTgts df.cols target_col seq_length (groupOf df p))
        else none) ps = _
      rw [if_neg h, if_neg (by simp [hbad])]
      exact (create_fold_none df seq_length feature_cols target_col ps).trans (by simp [h])

/-- C6 counterexample: a required feature column (`minutes`) is absent from
the row store, yet the Builder call does not fail — because no player has
more than window_length rows the missing column is never touched and the
call returns the empty-arrays success value. -/
theorem c6_counterexample :
    hasCol c6df "minutes" = false ∧ "minutes" ∈ default_feature_cols ∧
    create_sequences (some c6df) 5 default_feature_cols "points" ≠ none ∧
    create_sequences (some c6df) 5 default_feature_cols "points" = some ([], []) := by
  refine ⟨by decide, by decide, by decide, by decide⟩

/-- C6 (amended): If a required feature or target column is absent, the
Builder call fails as a whole — reported to the caller with no partial
output — whenever at least one player's group has more than window_length
rows; when every group fits inside window_length the missing column is
never accessed and the call returns the empty result.  `process_data`
additionally refuses to call the Builder at all when a required column is
missing. -/
theorem c6_missing_column (df : DataFrame) (seq_length : Nat)
    (feature_cols : List String) (target_col : String) (c : String)
    (hgw : hasCol df "gameweek" = true) (hpid : hasCol df "player_id" = true)
    (hc : c ∈ feature_cols ∨ c = target_col) (hmiss : hasCol df c = false) :
    ((∃ p ∈ playersOf df, seq_length < (groupOf df p).length) →
        create_sequences (some df) seq_length feature_cols target_col = none) ∧
    ((∀ p ∈ playersOf df, (groupOf df p).length ≤ seq_length) →
        create_sequences (some df) seq_length feature_cols target_col = some ([], [])) ∧
    (c ∈ required_cols → ∀ f, process_data_Xy f (some df) = none) := by
  have hbad : (feature_cols.all (fun x => hasCol df x) && hasCol df target_col) = false := by
    rcases hc with hcf | rfl
    · have hallf : feature_cols.all (fun x => hasCol df x) = false := by
        cases hall : feature_cols.all (fun x => hasCol df x) with
        | false => rfl
        | true =>
          have h2 := List.all_eq_true.mp hall c hcf
          rw [hmiss] at h2
          cases h2
      simp [hallf]
    · simp [hmiss]
  have hfold := create_step_fold_bad df seq_length feature_cols target_col hbad (playersOf df) [] []
  refine ⟨?_, ?_, ?_⟩
  · intro ⟨p, hp, hlt⟩
    simp only [create_sequences, hgw, hpid, if_true]
    rw [hfold, if_neg]
    intro hall
    have := List.all_eq_true.mp hall p hp
    simp at this
    omega
  · intro hall
    simp only [create_sequences, hgw, hpid, if_true]
    rw [hfold, if_pos]
    rw [List.all_eq_true]
    intro p hp
    simpa using hall p hp
  · intro hcreq f
    simp only [process_data_Xy]
    rw [if_neg]
    intro hall
    have := List.all_eq_true.mp hall c hcreq
    rw [hmiss] at this
    cases this

theorem c6_witness :
    hasCol c6df "gameweek" = true ∧ hasCol c6df "player_id" = true ∧
    ("minutes" ∈ default_feature_cols ∨ "minutes" = "points") ∧
    hasCol c6df "minutes" = false ∧
    (((∃ p ∈ playersOf c6df, 5 < (groupOf c6df p).length) →
        create_sequences (some c6df) 5 default_feature_cols "points" = none) ∧
     ((∀ p ∈ playersOf c6df, (groupOf c6df p).length ≤ 5) →
        create_sequences (some c6df) 5 default_feature_cols "points" = some ([], [])) ∧
     ("minutes" ∈ required_cols → ∀ f, process_data_Xy f (some c6df) = none)) :=
  ⟨by decide, by decide, by decide, by decide,
    c6_missing_column c6df 5 default_feature_cols "points" "minutes"
      (by decide) (by decide) (by decide) (by decide)⟩

/-- C4: When zero windows are produced across all players the source does
NOT report a distinct "no sequences" outcome: `create_sequences` returns
the pair of empty arrays (modelled `some ([], [])`), not the `None, None`
pair that `process_data` and `main` branch on, so the empty result is
indistinguishable from a successful non-empty one at the `X is None`
checks. -/
theorem c4_zero_windows_not_reported :
    create_sequences (some c4df) 5 default_feature_cols "points" = some ([], []) ∧
    process_data_Xy (fun _ v => v) (some c4df) = some ([], []) ∧
    some (([], []) : List (List (List Int)) × List Int) ≠ none := by
  exact ⟨by decide, by decide, by simp⟩

/-- C9: When a per-player file has no gameweek column, ingestion
synthesizes one from the positional row index: row k (zero-based) receives
gameweek k + 1, so the synthesized column reads exactly 1..n in the file's
original row order, each original row kept intact behind its new gameweek
cell. -/
theorem c9_gameweek_synthesis (df : DataFrame) (h : hasCol df "gameweek" = false) :
    hasCol (addGameweek df) "gameweek" = true ∧
    (addGameweek df).rows.length = df.rows.length ∧
    (addGameweek df).rows.map (fun r => cellAt (addGameweek df).cols r "gameweek")
      = (List.range df.rows.length).map (fun k : Nat => (k : Int) + 1) ∧
    ∀ k, k < df.rows.length →
      (addGameweek df).rows.getD k [] = ((k : Int) + 1) :: df.rows.getD k [] := by
  have hne : ¬ (hasCol df "gameweek" = true) := by simp [h]
  refine ⟨?_, ?_, ?_, ?_⟩
  · unfold addGameweek
    rw [if_neg hne]
    simp [hasCol]
  · unfold addGameweek
    rw [if_neg hne]
    simp
  · unfold addGameweek
    rw [if_neg hne]
    apply List.ext_getElem
    · simp
    · intro k h1 h2
      simp only [List.getElem_map, List.getElem_mapIdx, List.getElem_range]
      simp [cellAt, List.indexOf_cons_self]
  · intro k hk
    unfold addGameweek
    rw [if_neg hne]
    rw [List.getD_eq_getElem _ _ (by simpa using hk), List.getD_eq_getElem _ _ hk]
    simp [List.getElem_mapIdx]

theorem c9_witness :
    hasCol { cols := ["minutes"], rows := [[90], [45], [0]] : DataFrame } "gameweek" = false ∧
    (hasCol (addGameweek { cols := ["minutes"], rows := [[90], [45], [0]] }) "gameweek" = true ∧
     (addGameweek { cols := ["minutes"], rows := [[90], [45], [0]] }).rows.length
        = ({ cols := ["minutes"], rows := [[90], [45], [0]] : DataFrame }).rows.length ∧
     (addGameweek { cols := ["minutes"], rows := [[90], [45], [0]] }).rows.map
         (fun r => cellAt (addGameweek { cols := ["minutes"], rows := [[90], [45], [0]] }).cols
           r "gameweek")
       = (List.range ({ cols := ["minutes"], rows := [[90], [45], [0]] : DataFrame }).rows.length).map
           (fun k : Nat => (k : Int) + 1) ∧
     ∀ k, k < ({ cols := ["minutes"], rows := [[90], [45], [0]] : DataFrame }).rows.length →
       (addGameweek { cols := ["minutes"], rows := [[90], [45], [0]] }).rows.getD k []
         = ((k : Int) + 1) :: ({ cols := ["minutes"], rows := [[90], [45], [0]] : DataFrame }).rows.getD k []) :=
  ⟨by decide, c9_gameweek_synthesis { cols := ["minutes"], rows := [[90], [45], [0]] } (by decide)⟩

-- Helper lemmas for the normalization frame property (C10): the per-column
-- transform leaves every cell outside the normalized columns unchanged,
-- hence commutes with sorting, grouping and target extraction.

theorem cellAt_normRow (f : String → Int → Int) (ncols cols : List String) (r : List Int)
    (c : String) (h0 : ncols.contains "" = false) (hc : ncols.contains c = false) :
    cellAt cols (normRow f ncols cols r) c = cellAt cols r c := by
  unfold cellAt normRow
  by_cases hi : cols.indexOf c < r.length
  · rw [List.getD_eq_getElem _ _ (by simpa using hi), List.getD_eq_getElem _ _ hi,
      List.getElem_mapIdx]
    by_cases hic : cols.indexOf c < cols.length
    · have hch : cols.getD (cols.indexOf c) "" = c := by
        rw [List.getD_eq_getElem _ _ hic, List.getElem_indexOf hic]
      rw [hch, hc]
      simp
    · have hch : cols.getD (cols.indexOf c) "" = "" := by
        simp [List.getD_eq_getElem?_getD, List.getElem?_eq_none (le_of_not_lt hic)]
      rw [hch, h0]
      simp
  · have h1 : r.length ≤ cols.indexOf c := le_of_not_lt hi
    rw [List.getD_eq_getElem?_getD, List.getD_eq_getElem?_getD,
      List.getElem?_eq_none (by simpa [normRow] using h1), List.getElem?_eq_none h1]

theorem rowKey_normRow (f : String → Int → Int) (ncols cols : List String) (r : List Int)
    (h0 : ncols.contains "" = false) (hpid : ncols.contains "player_id" = false)
    (hgw : ncols.contains "gameweek" = false) :
    rowKey cols (normRow f ncols cols r) = rowKey cols r := by
  unfold rowKey
  rw [cellAt_normRow f ncols cols r "player_id" h0 hpid,
    cellAt_normRow f ncols cols r "gameweek" h0 hgw]

theorem rowLeB_normRow (f : String → Int → Int) (ncols cols : List String) (r s : List Int)
    (h0 : ncols.contains "" = false) (hpid : ncols.contains "player_id" = false)
    (hgw : ncols.contains "gameweek" = false) :
    rowLeB cols (normRow f ncols cols r) (normRow f ncols cols s) = rowLeB cols r s := by
  unfold rowLeB
  rw [rowKey_normRow f ncols cols r h0 hpid hgw, rowKey_normRow f ncols cols s h0 hpid hgw]

theorem insertSorted_normRow (f : String → Int → Int) (ncols cols : List String)
    (r : List Int) (l : List (List Int))
    (h0 : ncols.contains "" = false) (hpid : ncols.contains "player_id" = false)
    (hgw : ncols.contains "gameweek" = false) :
    insertSorted cols (normRow f ncols cols r) (l.map (normRow f ncols cols))
      = (insertSorted cols r l).map (normRow f ncols cols) := by
  induction l with
  | nil => rfl
  | cons s t ih =>
    simp only [List.map_cons, insertSorted]
    rw [rowLeB_normRow f ncols cols r s h0 hpid hgw]
    by_cases h : rowLeB cols r s = true
    · rw [if_pos h, if_pos h]
      simp
    · rw [if_neg h, if_neg h]
      simp [ih]

theorem sortRows_normRow (f : String → Int → Int) (ncols cols : List String)
    (rows : List (List Int))
    (h0 : ncols.contains "" = false) (hpid : ncols.contains "player_id" = false)
    (hgw : ncols.contains "gameweek" = false) :
    sortRows cols (rows.map (normRow f ncols cols))
      = (sortRows cols rows).map (normRow f ncols cols) := by
  induction rows with
  | nil => rfl
  | cons r t ih =>
    simp only [List.map_cons, sortRows]
    rw [ih, insertSorted_normRow f ncols cols r (sortRows cols t) h0 hpid hgw]

theorem playersOf_normalize (f : String → Int → Int) (ncols : List String) (df : DataFrame)
    (h0 : ncols.contains "" = false) (hpid : ncols.contains "player_id" = false)
    (hgw : ncols.contains "gameweek" = false) :
    playersOf (normalizeCols f ncols df) = playersOf df := by
  unfold playersOf normalizeCols
  simp only
  rw [sortRows_normRow f ncols df.cols df.rows h0 hpid hgw]
  congr 1
  rw [List.map_map]
  exact List.map_congr_left
    (fun r _ => cellAt_normRow f ncols df.cols r "player_id" h0 hpid)

theorem groupOf_normalize (f : String → Int → Int) (ncols : List String) (df : DataFrame)
    (p : Int)
    (h0 : ncols.contains "" = false) (hpid : ncols.contains "player_id" = false)
    (hgw : ncols.contains "gameweek" = false) :
    groupOf (normalizeCols f ncols df) p = (groupOf df p).map (normRow f ncols df.cols) := by
  unfold groupOf playerGroup normalizeCols
  simp only
  rw [sortRows_normRow f ncols df.cols df.rows h0 hpid hgw, List.filter_map]
  congr 1
  apply List.filter_congr
  intro r _
  simp [cellAt_normRow f ncols df.cols r "player_id" h0 hpid]

theorem playerTgts_normRow (f : String → Int → Int) (ncols cols : List String)
    (target_col : String) (seq_length : Nat) (g : List (List Int))
    (h0 : ncols.contains "" = false) (htc : ncols.contains target_col = false) :
    playerTgts cols target_col seq_length (g.map (normRow f ncols cols))
      = playerTgts cols target_col seq_length g := by
  unfold playerTgts
  rw [List.length_map]
  apply List.map_congr_left
  intro i _
  by_cases h : i + seq_length < g.length
  · rw [List.getD_eq_getElem _ _ (by simpa using h), List.getD_eq_getElem _ _ h,
      List.getElem_map]
    exact cellAt_normRow f ncols cols _ target_col h0 htc
  · rw [List.getD_eq_getElem?_getD, List.getD_eq_getElem?_getD,
      List.getElem?_eq_none (by simpa using le_of_not_lt h),
      List.getElem?_eq_none (le_of_not_lt h)]

theorem blockTgts_normalize (f : String → Int → Int) (ncols : List String) (df : DataFrame)
    (target_col : String) (seq_length : Nat) (p : Int)
    (h0 : ncols.contains "" = false) (hpid : ncols.contains "player_id" = false)
    (hgw : ncols.contains "gameweek" = false) (htc : ncols.contains target_col = false) :
    blockTgts (normalizeCols f ncols df) target_col seq_length p
      = blockTgts df target_col seq_length p := by
  unfold blockTgts
  rw [groupOf_normalize f ncols df p h0 hpid hgw, List.length_map]
  split
  · rfl
  · exact playerTgts_normRow f ncols df.cols target_col seq_length (groupOf df p) h0 htc

theorem create_sequences_gw_none (df : DataFrame) (seq_length : Nat)
    (feature_cols : List String) (target_col : String)
    (h : hasCol df "gameweek" = false) :
    create_sequences (some df) seq_length feature_cols target_col = none := by
  simp [create_sequences, h]

theorem create_sequences_pid_none (df : DataFrame) (seq_length : Nat)
    (feature_cols : List String) (target_col : String)
    (h : hasCol df "player_id" = false) :
    create_sequences (some df) seq_length feature_cols target_col = none := by
  simp [create_sequences, h]

theorem create_targets_normalize (f : String → Int → Int) (ncols : List String)
    (df : DataFrame) (seq_length : Nat) (feature_cols : List String) (target_col : String)
    (h0 : ncols.contains "" = false) (hpid : ncols.contains "player_id" = false)
    (hgw : ncols.contains "gameweek" = false) (htc : ncols.contains target_col = false) :
    (create_sequences (some (normalizeCols f ncols df)) seq_length feature_cols
        target_col).map Prod.snd
      = (create_sequences (some df) seq_length feature_cols target_col).map Prod.snd := by
  have hsamegw : hasCol (normalizeCols f ncols df) "gameweek" = hasCol df "gameweek" := rfl
  have hsamepid : hasCol (normalizeCols f ncols df) "player_id" = hasCol df "player_id" := rfl
  by_cases hgwb : hasCol df "gameweek" = true
  · by_cases hpidb : hasCol df "player_id" = true
    · by_cases hok :
        (feature_cols.all (fun c => hasCol df c) && hasCol df target_col) = true
      · have hokn : (feature_cols.all (fun c => hasCol (normalizeCols f ncols df) c) &&
            hasCol (normalizeCols f ncols df) target_col) = true := hok
        rw [create_sequences_eq_blocks df seq_length feature_cols target_col hgwb hpidb hok,
          create_sequences_eq_blocks (normalizeCols f ncols df) seq_length feature_cols
            target_col (hsamegw.trans hgwb) (hsamepid.trans hpidb) hokn]
        simp only [Option.map_some']
        congr 1
        rw [playersOf_normalize f ncols df h0 hpid hgw]
        exact congrArg List.flatten
          (List.map_congr_left (fun p _ =>
            blockTgts_normalize f ncols df target_col seq_length p h0 hpid hgw htc))
      · have hokf : (feature_cols.all (fun c => hasCol df c) && hasCol df target_col)
            = false := Bool.eq_false_iff.mpr hok
        have hoknf : (feature_cols.all (fun c => hasCol (normalizeCols f ncols df) c) &&
            hasCol (normalizeCols f ncols df) target_col) = false := hokf
        have e1 := create_step_fold_bad (normalizeCols f ncols df) seq_length feature_cols
          target_col hoknf (playersOf (normalizeCols f ncols df)) [] []
        have e2 := create_step_fold_bad df seq_length feature_cols target_col hokf
          (playersOf df) [] []
        have hngw : hasCol (normalizeCols f ncols df) "gameweek" = true := hsamegw.trans hgwb
        have hnpid : hasCol (normalizeCols f ncols df) "player_id" = true :=
          hsamepid.trans hpidb
        simp only [create_sequences, hgwb, hpidb, hngw, hnpid, if_true]
        rw [e1, e2, playersOf_normalize f ncols df h0 hpid hgw]
        have hgrp : ∀ p : Int, groupOf (normalizeCols f ncols df) p
            = (groupOf df p).map (normRow f ncols df.cols) :=
          fun p => groupOf_normalize f ncols df p h0 hpid hgw
        simp only [hgrp, List.length_map]
    · have hpidf : hasCol df "player_id" = false := Bool.eq_false_iff.mpr hpidb
      have hnpid : hasCol (normalizeCols f ncols df) "player_id" = false := hpidf
      rw [create_sequences_pid_none df seq_length feature_cols target_col hpidf,
        create_sequences_pid_none (normalizeCols f ncols df) seq_length feature_cols
          target_col hnpid]
  · have hgwf : hasCol df "gameweek" = false := Bool.eq_false_iff.mpr hgwb
    have hngw : hasCol (normalizeCols f ncols df) "gameweek" = false := hgwf
    rw [create_sequences_gw_none df seq_length feature_cols target_col hgwf,
      create_sequences_gw_none (normalizeCols f ncols df) seq_length feature_cols
        target_col hngw]

/-- C10: Normalization before sequence construction rescales only the
columns selected for normalization; every other column — in particular the
target column and the sort keys — is left unchanged, so the Sequence
Builder's emitted targets on the normalized store equal those on the raw
store: each target is the original, un-normalized points value of its row.
Instantiated to `process_data`: its y output equals the y of running the
Builder directly on the raw store. -/
theorem c10_normalization_frame (f : String → Int → Int) (ncols : List String)
    (df : DataFrame) (seq_length : Nat) (feature_cols : List String) (target_col : String)
    (h0 : ncols.contains "" = false) (hpid : ncols.contains "player_id" = false)
    (hgw : ncols.contains "gameweek" = false) (htc : ncols.contains target_col = false) :
    ((create_sequences (some (normalizeCols f ncols df)) seq_length feature_cols
        target_col).map Prod.snd
      = (create_sequences (some df) seq_length feature_cols target_col).map Prod.snd) ∧
    (∀ c, ncols.contains c = false →
      (normalizeCols f ncols df).rows.map (fun r => cellAt df.cols r c)
        = df.rows.map (fun r => cellAt df.cols r c)) ∧
    ((process_data_Xy f (some df)).map Prod.snd
      = if required_cols.all (fun c => hasCol df c) then
          (create_sequences (some df) 5 default_feature_cols "points").map Prod.snd
        else none) := by
  refine ⟨create_targets_normalize f ncols df seq_length feature_cols target_col
    h0 hpid hgw htc, ?_, ?_⟩
  · intro c hcc
    simp only [normalizeCols, List.map_map]
    exact List.map_congr_left (fun r _ => cellAt_normRow f ncols df.cols r c h0 hcc)
  · simp only [process_data_Xy]
    by_cases hreq : required_cols.all (fun c => hasCol df c) = true
    · rw [if_pos hreq, if_pos hreq]
      exact create_targets_normalize f default_feature_cols df 5 default_feature_cols
        "points" (by decide) (by decide) (by decide) (by decide)
    · rw [if_neg hreq, if_neg hreq]
      rfl

theorem c10_witness :
    default_feature_cols.contains "" = false ∧
    default_feature_cols.contains "player_id" = false ∧
    default_feature_cols.contains "gameweek" = false ∧
    default_feature_cols.contains "points" = false ∧
    (((create_sequences (some (normalizeCols (fun _ v => v * 2) default_feature_cols c4df))
          5 default_feature_cols "points").map Prod.snd
        = (create_sequences (some c4df) 5 default_feature_cols "points").map Prod.snd) ∧
     (∀ c, default_feature_cols.contains c = false →
       (normalizeCols (fun _ v => v * 2) default_feature_cols c4df).rows.map
           (fun r => cellAt c4df.cols r c)
         = c4df.rows.map (fun r => cellAt c4df.cols r c)) ∧
     ((process_data_Xy (fun _ v => v * 2) (some c4df)).map Prod.snd
       = if required_cols.all (fun c => hasCol c4df c) then
           (create_sequences (some c4df) 5 default_feature_cols "points").map Prod.snd
         else none)) :=
  ⟨by decide, by decide, by decide, by decide,
    c10_normalization_frame (fun _ v => v * 2) default_feature_cols c4df 5
      default_feature_cols "points" (by decide) (by decide) (by decide) (by decide)⟩
